import Mathlib

/-
Verification of the SoundML audio I/O core (src/io/cio/read.hxx, write.hxx,
common.hxx) against its natural-language specification.

Shallow embedding conventions:
- sf_count_t and size_t quantities that are provably non-negative along the
  modelled paths are Nat; fields that the code compares against 0 before
  validation (the SndfileHandle metadata, error codes, the write counts) are
  Int.
- The libsndfile decoder is modelled by the list of results its successive
  readf calls return (a chunk of frames, or a sticky error code); once the
  list is exhausted readf returns 0 frames, exactly like end of stream.
- The soxr resampler is modelled by the list of results its successive
  soxr_process calls return (idone, odone and the odone*channels samples it
  writes at the output cursor, or an error string); an exhausted list behaves
  like a flush call that produces nothing. soxr_create is an oracle boolean.
- The destination bigarray is a total map Nat -> Sample together with the log
  of every write performed into it, as (offset, length) sample intervals, so
  that in-bounds claims are about the recorded write extents.
- Frame estimates use exact ceiling division: the C++ computes
  ceil(frames * target_sr / input_sr) on double values that are exact
  integers in the modelled range.
-/

namespace SoundML

abbrev Sample := Int

/-- Error kinds of common.hxx (SNDFILE_ERR is the SourceError of the spec,
SOXR_ERR the ResampleError, SOUNDML_ERR the InternalError). -/
inductive ErrorType
  | SNDFILE_ERR
  | SOXR_ERR
  | SOUNDML_ERR
deriving DecidableEq, Repr

/-- The std::variant<int, std::string> payload of an Error. -/
inductive ErrVal
  | icode (c : Int)
  | emsg (s : String)
deriving DecidableEq, Repr

/-- Error = std::pair<std::variant<int, std::string>, ErrorType> from common.hxx. -/
structure Error where
  val : ErrVal
  typ : ErrorType
deriving DecidableEq, Repr

/- libsndfile error codes used by the sources. -/

def SF_ERR_UNRECOGNISED_FORMAT : Int := 1

def SF_ERR_SYSTEM : Int := 2

def SF_ERR_MALFORMED_FILE : Int := 3

def SF_ERR_UNSUPPORTED_ENCODING : Int := 4

/- soxr recipe constants from soxr.h. -/

def SOXR_QQ : Nat := 0

def SOXR_LQ : Nat := 1

def SOXR_MQ : Nat := 2

def SOXR_HQ : Nat := 4

def SOXR_VHQ : Nat := 6

/-- The resampling_t enumeration of common.hxx. -/
inductive resampling_t
  | RS_NONE
  | RS_SOXR_QQ
  | RS_SOXR_LQ
  | RS_SOXR_MQ
  | RS_SOXR_HQ
  | RS_SOXR_VHQ
  | RS_SCR_LINEAR
  | RS_SINC_BEST_QUALITY
  | RS_SINC_MEDIUM_QUALITY
  | RS_SINC_FASTEST
  | RS_ZERO_ORDER_HOLD
  | RS_SRC_LINEAR
deriving DecidableEq, Repr, Fintype

/-- get_recipe_type from common.hxx: quality preset to soxr recipe. -/
def get_recipe_type (type : resampling_t) : Nat :=
  match type with
  | .RS_SOXR_VHQ => SOXR_VHQ
  | .RS_SOXR_HQ => SOXR_HQ
  | .RS_SOXR_MQ => SOXR_MQ
  | .RS_SOXR_LQ => SOXR_LQ
  | _ => SOXR_VHQ

/-- AudioMetadata from common.hxx. All produced values are non-negative. -/
structure AudioMetadata where
  frames : Nat
  channels : Nat
  sample_rate : Nat
  padded_frames : Nat
  format : Nat
deriving DecidableEq, Repr

/-- The caller-facing exception category chosen by raise_caml_exception. -/
inductive CamlExn
  | invalid_format
  | file_not_found
  | resampling_error
  | internal_error
deriving DecidableEq, Repr

/-- raise_caml_exception from common.hxx, reduced to the exception tag it
raises. (The emsg-under-SNDFILE_ERR combination never occurs: sndfile errors
always carry an int code.) -/
def raise_tag (error : Error) : CamlExn :=
  match error.typ with
  | .SNDFILE_ERR =>
    match error.val with
    | .icode c =>
      if c = SF_ERR_UNRECOGNISED_FORMAT ∨ c = SF_ERR_MALFORMED_FILE ∨ c = SF_ERR_UNSUPPORTED_ENCODING
      then .invalid_format
      else .file_not_found
    | .emsg _ => .internal_error
  | .SOXR_ERR => .resampling_error
  | .SOUNDML_ERR => .internal_error

/-- One result of a sndfile.readf call: a chunk of f frames whose f*channels
interleaved samples are data, or a decode error (readf returns 0 and
sndfile.error() becomes the code). -/
inductive ReadResult
  | chunk (f : Nat) (data : List Sample)
  | rerror (c : Int)
deriving DecidableEq, Repr

/-- One result of a soxr_process call: consumed/produced counts plus the
odone*channels samples the resampler wrote at the output cursor, or a soxr
error string. -/
inductive SoxrResp
  | rok (idone odone : Nat) (data : List Sample)
  | rerr (m : String)
deriving DecidableEq, Repr

/-- The destination bigarray region: its current contents plus the log of all
writes performed into it, each as (first sample offset, length in samples). -/
structure Buffer where
  data : Nat → Sample
  writes : List (Nat × Nat)

/-- Write the samples xs one after the other starting at sample offset off. -/
def overwrite : (Nat → Sample) → Nat → List Sample → (Nat → Sample)
  | g, _, [] => g
  | g, off, x :: xs => overwrite (Function.update g off x) (off + 1) xs

/-- A write of exactly n samples at offset off (memcpy / soxr output /
fill_n): the first n entries of xs land in the region and the write of extent
(off, n) is logged. -/
def Buffer.writeN (b : Buffer) (off n : Nat) (xs : List Sample) : Buffer :=
  ⟨overwrite b.data off (xs.take n), b.writes ++ [(off, n)]⟩

/-- Exact ceiling division, the value of std::ceil(a / b) for the integer
quantities the readers divide. -/
def ceilDiv (a b : Nat) : Nat := (a + b - 1) / b

/-- The loop of SndfileReader::process_whole: repeatedly readf up to 4096
frames and memcpy the chunk at sample offset total_read * channels; stop when
readf returns 0; a decode error aborts with SNDFILE_ERR. Returns the final
total_read and the buffer. -/
def ptLoop (channels tr : Nat) (buf : Buffer) : List ReadResult → Except Error (Nat × Buffer)
  | [] => .ok (tr, buf)
  | .rerror c :: _ => .error ⟨.icode c, .SNDFILE_ERR⟩
  | .chunk f d :: rest =>
    if f = 0 then .ok (tr, buf)
    else ptLoop channels (tr + f) (buf.writeN (tr * channels) (f * channels) d) rest

/-- SndfileReader::process_whole from read.hxx: the pass-through reader. The
bigarray is allocated with nframes * channels samples before the loop; the
metadata is (total_read, channels, sample_rate, total_read, format). -/
def SndfileReader.process_whole (nframes channels sample_rate format : Nat)
    (allocOk : Bool) (init : Nat → Sample) (reads : List ReadResult) :
    Except Error (Buffer × AudioMetadata) :=
  if allocOk = false then .error ⟨.icode (-1), .SOUNDML_ERR⟩
  else
    match ptLoop channels 0 ⟨init, []⟩ reads with
    | .error e => .error e
    | .ok (tr, buf) => .ok (buf, ⟨tr, channels, sample_rate, tr, format⟩)

/-- InternalError raised when the pre-sized output is exhausted while input
remains (read.hxx line 263). -/
def insufficientErr : Error := ⟨.emsg "Output buffer insufficient based on estimate", .SOUNDML_ERR⟩

/-- InternalError raised by the defensive post-process overflow check
(read.hxx line 290). -/
def overflowErr : Error := ⟨.emsg "Output buffer overflow detected after soxr_process", .SOUNDML_ERR⟩

/-- The flushing phase of SoXrReader::process_whole: input is exhausted, so
every soxr_process call passes null input; the loop ends at the first call
with odone = 0. frames is the estimated capacity in frames; each response
writes its odone * channels samples at the cursor total_generated * channels. -/
def flushLoop (frames channels tr tg : Nat) (buf : Buffer) :
    List SoxrResp → Except Error (Nat × Nat × Buffer)
  | [] => .ok (tr, tg, buf)
  | .rerr m :: _ => .error ⟨.emsg m, .SOXR_ERR⟩
  | .rok _ odone dat :: rest =>
    if frames < tg + odone then .error overflowErr
    else if odone = 0 then .ok (tr, tg + odone, buf.writeN (tg * channels) (odone * channels) dat)
    else flushLoop frames channels tr (tg + odone) (buf.writeN (tg * channels) (odone * channels) dat) rest

/-- The streaming phase of SoXrReader::process_whole: each iteration reads a
chunk (a decode error aborts with SNDFILE_ERR; a 0-frame read switches to the
flushing phase), then checks remaining capacity (0 remaining while input is
not exhausted aborts with insufficientErr), then performs one soxr_process
call (writing odone * channels samples at the cursor) and the defensive
overflow check. Returns (total_read, total_generated, buffer). -/
def mainLoop (frames channels : Nat) (oracle : List SoxrResp) (tr tg : Nat) (buf : Buffer) :
    List ReadResult → Except Error (Nat × Nat × Buffer)
  | [] => flushLoop frames channels tr tg buf oracle
  | .rerror c :: _ => .error ⟨.icode c, .SNDFILE_ERR⟩
  | .chunk f _ :: rest =>
    if f = 0 then flushLoop frames channels tr tg buf oracle
    else if frames - tg = 0 then .error insufficientErr
    else
      match oracle with
      | [] => mainLoop frames channels [] (tr + f) tg buf rest
      | .rerr m :: _ => .error ⟨.emsg m, .SOXR_ERR⟩
      | .rok _ odone dat :: orest =>
        if frames < tg + odone then .error overflowErr
        else mainLoop frames channels orest (tr + f) (tg + odone)
          (buf.writeN (tg * channels) (odone * channels) dat) rest

/-- SoXrReader::process_whole from read.hxx: estimate
frames = ceil(nominal * target_sr / input_sr), allocate that many frames,
create the resampler (createOk models soxr_create), run the streaming loop,
then recompute accurate_frames from the frames actually read and, when fix is
set and output fell short, zero-fill the gap; metadata is
(total_generated, channels, target_sr, fix ? accurate : total_generated,
format). -/
def SoXrReader.process_whole (nominal channels input_sr target_sr format : Nat)
    (fix : Bool) (createOk : Bool) (init : Nat → Sample)
    (reads : List ReadResult) (oracle : List SoxrResp) :
    Except Error (Buffer × AudioMetadata) :=
  let frames := ceilDiv (nominal * target_sr) input_sr
  if createOk = false then .error ⟨.emsg "Unknown soxr error", .SOXR_ERR⟩
  else
    match mainLoop frames channels oracle 0 0 ⟨init, []⟩ reads with
    | .error e => .error e
    | .ok (tr, tg, buf) =>
      let accurate := ceilDiv (tr * target_sr) input_sr
      let buf2 :=
        if fix ∧ tg < accurate then
          let padding := accurate - tg
          if 0 < padding then
            buf.writeN (tg * channels) (padding * channels) (List.replicate (padding * channels) (0 : Sample))
          else buf
        else buf
      .ok (buf2, ⟨tg, channels, target_sr, if fix then accurate else tg, format⟩)

/-- The state of a SndfileHandle right after opening: sndfile.error() and the
four nominal metadata fields, plus the readf results the decoder will
deliver. -/
structure SndFile where
  openErr : Int
  frames : Int
  channels : Int
  samplerate : Int
  format : Int
  reads : List ReadResult

/-- The two reader strategies of read_audio_file. -/
inductive Strategy
  | passThrough
  | resampler
deriving DecidableEq, Repr

/-- The strategy choice of read_audio_file (read.hxx lines 351-357): the
resampler exactly when res_typ != RS_NONE and sample_rate != native rate. -/
def selectStrategy (res_typ : resampling_t) (sample_rate native : Int) : Strategy :=
  if res_typ ≠ resampling_t.RS_NONE ∧ sample_rate ≠ native then .resampler else .passThrough

/-- read_audio_file from read.hxx: open (openErr models sndfile.error() after
construction), validate the four nominal fields, then dispatch to the chosen
reader. -/
def read_audio_file (sf : SndFile) (res_typ : resampling_t) (sample_rate : Int)
    (fix : Bool) (allocOk createOk : Bool) (init : Nat → Sample)
    (oracle : List SoxrResp) : Except Error (Buffer × AudioMetadata) :=
  if sf.openErr ≠ 0 then .error ⟨.icode sf.openErr, .SNDFILE_ERR⟩
  else if sf.frames ≤ 0 ∨ sf.channels ≤ 0 ∨ sf.samplerate ≤ 0 ∨ sf.format ≤ 0 then
    .error ⟨.icode SF_ERR_MALFORMED_FILE, .SNDFILE_ERR⟩
  else
    match selectStrategy res_typ sample_rate sf.samplerate with
    | .resampler =>
      SoXrReader.process_whole sf.frames.toNat sf.channels.toNat sf.samplerate.toNat
        sample_rate.toNat sf.format.toNat fix createOk init sf.reads oracle
    | .passThrough =>
      SndfileReader.process_whole sf.frames.toNat sf.channels.toNat sf.samplerate.toNat
        sf.format.toNat allocOk init sf.reads

/-- AudioWriter::write from write.hxx: writef(data, nframes) returned written
frames and sndfile.error() is lastErr; success iff written = nframes, else
SNDFILE_ERR with the last error code when set, else SF_ERR_SYSTEM. -/
def AudioWriter.write (nframes written lastErr : Int) : Except Error Unit :=
  if written ≠ nframes then
    .error ⟨.icode (if lastErr ≠ 0 then lastErr else SF_ERR_SYSTEM), .SNDFILE_ERR⟩
  else .ok ()

/-- Metadata of a reader result, when it succeeded. -/
def resultMD : Except Error (Buffer × AudioMetadata) → Option AudioMetadata
  | .ok (_, md) => some md
  | .error _ => none

/-- Write log of a reader result, when it succeeded. -/
def resultWrites : Except Error (Buffer × AudioMetadata) → Option (List (Nat × Nat))
  | .ok (b, _) => some b.writes
  | .error _ => none

/-- The sample at offset i of the destination of a successful read. -/
def sampleAt : Except Error (Buffer × AudioMetadata) → Nat → Option Sample
  | .ok (b, _), i => some (b.data i)
  | .error _, _ => none

/-- The (total_read, total_generated) pair of a successful resampling loop. -/
def loopOut : Except Error (Nat × Nat × Buffer) → Option (Nat × Nat)
  | .ok (tr, tg, _) => some (tr, tg)
  | .error _ => none

/-- The total_read of a successful pass-through loop. -/
def ptOut : Except Error (Nat × Buffer) → Option Nat
  | .ok (tr, _) => some tr
  | .error _ => none

/-- Total number of frames the pass-through loop reads from a decoder trace
(the sum of chunk sizes up to the first empty read). -/
def ptTotal : List ReadResult → Nat
  | [] => 0
  | .rerror _ :: _ => 0
  | .chunk f _ :: rest => if f = 0 then 0 else f + ptTotal rest

/-- The resampler contract of the flushing phase: every soxr_process call
that the loop performs reports odone at most the output capacity
frames - total_generated it was given. Mirrors flushLoop call for call. -/
def flushOK (frames tg : Nat) : List SoxrResp → Bool
  | [] => true
  | .rerr _ :: _ => true
  | .rok _ odone _ :: rest =>
    decide (odone ≤ frames - tg) && (decide (odone = 0) || flushOK frames (tg + odone) rest)

/-- The resampler contract of the streaming phase: every soxr_process call
that the loop performs reports odone at most the output capacity it was
given. Mirrors mainLoop call for call. -/
def mainOK (frames tg : Nat) (oracle : List SoxrResp) : List ReadResult → Bool
  | [] => flushOK frames tg oracle
  | .rerror _ :: _ => true
  | .chunk f _ :: rest =>
    if f = 0 then flushOK frames tg oracle
    else if frames - tg = 0 then true
    else
      match oracle with
      | [] => mainOK frames tg [] rest
      | .rerr _ :: _ => true
      | .rok _ odone _ :: orest =>
        decide (odone ≤ frames - tg) && mainOK frames (tg + odone) orest rest

/- Helper lemmas. -/

theorem overwrite_of_lt (xs : List Sample) : ∀ (g : Nat → Sample) (off i : Nat), i < off →
    overwrite g off xs i = g i := by
  induction xs with
  | nil => intro g off i _; rfl
  | cons x xs ih =>
    intro g off i h
    show overwrite (Function.update g off x) (off + 1) xs i = g i
    rw [ih _ _ _ (by omega), Function.update_noteq (by omega)]

theorem overwrite_replicate (n : Nat) : ∀ (g : Nat → Sample) (off i : Nat), off ≤ i → i < off + n →
    overwrite g off (List.replicate n (0 : Sample)) i = 0 := by
  induction n with
  | zero => intro g off i h1 h2; omega
  | succ n ih =>
    intro g off i h1 h2
    rw [List.replicate_succ]
    show overwrite (Function.update g off 0) (off + 1) (List.replicate n 0) i = 0
    rcases Nat.lt_or_ge i (off + 1) with h | h
    · rw [overwrite_of_lt _ _ _ _ h]
      have hio : i = off := by omega
      subst hio
      simp
    · exact ih _ _ _ h (by omega)

theorem flushLoop_tg_le (oracle : List SoxrResp) :
    ∀ (frames channels tr tg : Nat) (buf : Buffer) (tr2 tg2 : Nat), tg ≤ frames →
    loopOut (flushLoop frames channels tr tg buf oracle) = some (tr2, tg2) → tg2 ≤ frames := by
  induction oracle with
  | nil =>
    intro frames channels tr tg buf tr2 tg2 h1 h2
    simp only [flushLoop, loopOut, Option.some.injEq, Prod.mk.injEq] at h2
    omega
  | cons head rest ih =>
    intro frames channels tr tg buf tr2 tg2 h1 h2
    cases head with
    | rerr m => simp [flushLoop, loopOut] at h2
    | rok idone odone dat =>
      simp only [flushLoop] at h2
      split at h2
      · simp [loopOut] at h2
      · split at h2
        · simp only [loopOut, Option.some.injEq, Prod.mk.injEq] at h2
          omega
        · exact ih _ _ _ _ _ _ _ (by omega) h2

theorem mainLoop_tg_le (reads : List ReadResult) :
    ∀ (frames channels : Nat) (oracle : List SoxrResp) (tr tg : Nat) (buf : Buffer) (tr2 tg2 : Nat),
    tg ≤ frames →
    loopOut (mainLoop frames channels oracle tr tg buf reads) = some (tr2, tg2) → tg2 ≤ frames := by
  induction reads with
  | nil =>
    intro frames channels oracle tr tg buf tr2 tg2 h1 h2
    exact flushLoop_tg_le oracle frames channels tr tg buf tr2 tg2 h1 h2
  | cons head rest ih =>
    intro frames channels oracle tr tg buf tr2 tg2 h1 h2
    cases head with
    | rerror c => simp [mainLoop, loopOut] at h2
    | chunk f d =>
      by_cases hf : f = 0
      · simp only [mainLoop, if_pos hf] at h2
        exact flushLoop_tg_le oracle frames channels tr tg buf tr2 tg2 h1 h2
      · by_cases hrem : frames - tg = 0
        · simp [mainLoop, if_neg hf, if_pos hrem, loopOut] at h2
        · cases oracle with
          | nil =>
            simp only [mainLoop, if_neg hf, if_neg hrem] at h2
            exact ih _ _ _ _ _ _ _ _ h1 h2
          | cons o orest =>
            cases o with
            | rerr m => simp [mainLoop, if_neg hf, if_neg hrem, loopOut] at h2
            | rok idone odone dat =>
              by_cases hov : frames < tg + odone
              · simp [mainLoop, if_neg hf, if_neg hrem, if_pos hov, loopOut] at h2
              · simp only [mainLoop, if_neg hf, if_neg hrem, if_neg hov] at h2
                exact ih _ _ _ _ _ _ _ _ (by omega) h2

theorem ptLoop_total (reads : List ReadResult) :
    ∀ (channels tr : Nat) (buf : Buffer) (tr2 : Nat),
    ptOut (ptLoop channels tr buf reads) = some tr2 → tr2 = tr + ptTotal reads := by
  induction reads with
  | nil =>
    intro channels tr buf tr2 h
    simp only [ptLoop, ptOut, Option.some.injEq] at h
    simp [ptTotal, ← h]
  | cons head rest ih =>
    intro channels tr buf tr2 h
    cases head with
    | rerror c => simp [ptLoop, ptOut] at h
    | chunk f d =>
      simp only [ptLoop] at h
      split at h
      · simp only [ptOut, Option.some.injEq] at h
        simp_all [ptTotal]
      · have := ih _ _ _ _ h
        simp_all [ptTotal]
        omega

theorem flushLoop_ne_overflow (oracle : List SoxrResp) :
    ∀ (frames channels tr tg : Nat) (buf : Buffer), tg ≤ frames →
    flushOK frames tg oracle = true →
    flushLoop frames channels tr tg buf oracle ≠ .error overflowErr := by
  induction oracle with
  | nil => intro frames channels tr tg buf h1 h2; simp [flushLoop]
  | cons head rest ih =>
    intro frames channels tr tg buf h1 h2
    cases head with
    | rerr m => simp [flushLoop, overflowErr]
    | rok idone odone dat =>
      simp only [flushOK, Bool.and_eq_true, Bool.or_eq_true, decide_eq_true_eq] at h2
      obtain ⟨hod, hrest⟩ := h2
      simp only [flushLoop]
      rw [if_neg (by omega)]
      split
      · simp
      · rename_i hnz
        exact ih _ _ _ _ _ (by omega) (hrest.resolve_left hnz)

theorem mainLoop_ne_overflow (reads : List ReadResult) :
    ∀ (frames channels : Nat) (oracle : List SoxrResp) (tr tg : Nat) (buf : Buffer),
    tg ≤ frames → mainOK frames tg oracle reads = true →
    mainLoop frames channels oracle tr tg buf reads ≠ .error overflowErr := by
  induction reads with
  | nil =>
    intro frames channels oracle tr tg buf h1 h2
    exact flushLoop_ne_overflow oracle frames channels tr tg buf h1 h2
  | cons head rest ih =>
    intro frames channels oracle tr tg buf h1 h2
    cases head with
    | rerror c => simp [mainLoop, overflowErr]
    | chunk f d =>
      by_cases hf : f = 0
      · simp only [mainOK, if_pos hf] at h2
        simp only [mainLoop, if_pos hf]
        exact flushLoop_ne_overflow oracle frames channels tr tg buf h1 h2
      · by_cases hrem : frames - tg = 0
        · simp [mainLoop, if_neg hf, if_pos hrem, insufficientErr, overflowErr]
        · simp only [mainOK, if_neg hf, if_neg hrem] at h2
          cases oracle with
          | nil =>
            simp only [mainLoop, if_neg hf, if_neg hrem]
            exact ih _ _ _ _ _ _ h1 h2
          | cons o orest =>
            cases o with
            | rerr m => simp [mainLoop, if_neg hf, if_neg hrem, overflowErr]
            | rok idone odone dat =>
              simp only [Bool.and_eq_true, decide_eq_true_eq] at h2
              obtain ⟨hod, hrest⟩ := h2
              simp only [mainLoop, if_neg hf, if_neg hrem, if_neg (by omega : ¬frames < tg + odone)]
              exact ih _ _ _ _ _ _ (by omega) hrest

/- Claim theorems. -/

/-- Claim C1: refuted by evaluation of the embedded code (code bug). The
pass-through loop of SndfileReader::process_whole has no bound check against
the nframes * channels region allocated before the loop: with nominal
frames() = 1 and channels = 1 (capacity 1 * 1 = 1 sample), a decoder that
delivers two 1-frame chunks before end of stream makes the run succeed after
performing the writes (0, 1) and (1, 1); the second write ends at sample
offset 1 + 1 = 2, strictly beyond the capacity 1 * 1, contradicting the
claimed invariant that no write targets an offset at or beyond capacity. -/
theorem c1_out_of_bounds_write :
    resultWrites (SndfileReader.process_whole 1 1 44100 1 true (fun _ => 37)
        [.chunk 1 [5], .chunk 1 [7]])
      = some [(0, 1), (1, 1)]
    ∧ 1 * 1 < 1 + 1 :=
  ⟨rfl, by omega⟩

/-- Claim C2: totalGenerated ≤ estimatedFrames is never violated silently.
(1) If a chunk is read (input not yet exhausted) while the remaining capacity
frames - totalGenerated is 0, the loop fails with the insufficient-estimate
InternalError before any soxr_process call of that iteration. (2) In the
streaming phase, a process call whose odone would push totalGenerated past
frames makes the loop fail with the overflow InternalError. (3) Likewise in
the flushing phase. (4) Every successful loop run that starts with
totalGenerated ≤ frames ends with totalGenerated ≤ frames. -/
theorem c2_capacity_guard (frames channels tr tg f : Nat) (d : List Sample) (buf : Buffer)
    (rest : List ReadResult) (oracle : List SoxrResp) :
    (0 < f → frames ≤ tg →
      mainLoop frames channels oracle tr tg buf (.chunk f d :: rest) = .error insufficientErr)
    ∧ (∀ idone odone dat orest, 0 < f → tg < frames → frames < tg + odone →
      mainLoop frames channels (.rok idone odone dat :: orest) tr tg buf (.chunk f d :: rest)
        = .error overflowErr)
    ∧ (∀ idone odone dat orest, frames < tg + odone →
      flushLoop frames channels tr tg buf (.rok idone odone dat :: orest) = .error overflowErr)
    ∧ (∀ reads tr2 tg2, tg ≤ frames →
      loopOut (mainLoop frames channels oracle tr tg buf reads) = some (tr2, tg2) →
      tg2 ≤ frames) := by
  refine ⟨?_, ?_, ?_, ?_⟩
  · intro hf hle
    simp [mainLoop, if_neg (by omega : ¬f = 0), if_pos (by omega : frames - tg = 0)]
  · intro idone odone dat orest hf hlt hov
    simp [mainLoop, if_neg (by omega : ¬f = 0), if_neg (by omega : ¬frames - tg = 0), if_pos hov]
  · intro idone odone dat orest hov
    simp [flushLoop, if_pos hov]
  · intro reads tr2 tg2 hle h
    exact mainLoop_tg_le reads frames channels oracle tr tg buf tr2 tg2 hle h

theorem c2_capacity_guard_witness :
    mainLoop 2 1 [] 0 2 ⟨(fun _ => 37), []⟩ [.chunk 1 [5]] = .error insufficientErr
    ∧ mainLoop 2 1 [.rok 1 3 [1, 2, 3]] 0 0 ⟨(fun _ => 37), []⟩ [.chunk 1 [5]]
        = .error overflowErr
    ∧ flushLoop 2 1 0 0 ⟨(fun _ => 37), []⟩ [.rok 0 3 [1, 2, 3]] = .error overflowErr
    ∧ loopOut (mainLoop 4 1 [.rok 0 1 [9]] 0 0 ⟨(fun _ => 37), []⟩ [.chunk 1 [4]]) = some (1, 1)
    ∧ (1 : Nat) ≤ 4 :=
  ⟨(c2_capacity_guard 2 1 0 2 1 [5] ⟨(fun _ => 37), []⟩ [] []).1 (by omega) (by omega),
   (c2_capacity_guard 2 1 0 0 1 [5] ⟨(fun _ => 37), []⟩ [] []).2.1 1 3 [1, 2, 3] []
     (by omega) (by omega) (by omega),
   (c2_capacity_guard 2 1 0 0 1 [5] ⟨(fun _ => 37), []⟩ [] []).2.2.1 0 3 [1, 2, 3] [] (by omega),
   rfl,
   (c2_capacity_guard 4 1 0 0 1 [4] ⟨(fun _ => 37), []⟩ [] [.rok 0 1 [9]]).2.2.2
     [.chunk 1 [4]] 1 1 (by omega) rfl⟩

/-- Claim C6: read_audio_file fails with a sndfile SourceError carrying the
open error code when the underlying decode fails on open, and with the
SF_ERR_MALFORMED_FILE SourceError (which raise_caml_exception classifies as
invalid_format) whenever any one of the nominal frames, channels, sample rate
or format is non-positive; the disjunction covers each field independently. -/
theorem c6_open_validation (sf : SndFile) (res_typ : resampling_t) (sample_rate : Int)
    (fix allocOk createOk : Bool) (init : Nat → Sample) (oracle : List SoxrResp) :
    (sf.openErr ≠ 0 →
      read_audio_file sf res_typ sample_rate fix allocOk createOk init oracle
        = .error ⟨.icode sf.openErr, .SNDFILE_ERR⟩)
    ∧ (sf.openErr = 0 →
      (sf.frames ≤ 0 ∨ sf.channels ≤ 0 ∨ sf.samplerate ≤ 0 ∨ sf.format ≤ 0) →
      read_audio_file sf res_typ sample_rate fix allocOk createOk init oracle
        = .error ⟨.icode SF_ERR_MALFORMED_FILE, .SNDFILE_ERR⟩
      ∧ raise_tag ⟨.icode SF_ERR_MALFORMED_FILE, .SNDFILE_ERR⟩ = .invalid_format) := by
  constructor
  · intro h
    simp [read_audio_file, h]
  · intro h hbad
    refine ⟨?_, rfl⟩
    rw [read_audio_file, if_neg (by simp [h]), if_pos hbad]

theorem c6_open_validation_witness :
    read_audio_file ⟨5, 2, 1, 44100, 1, []⟩ .RS_NONE 44100 true true true (fun _ => 37) []
      = .error ⟨.icode 5, .SNDFILE_ERR⟩
    ∧ read_audio_file ⟨0, 0, 1, 44100, 1, []⟩ .RS_NONE 44100 true true true (fun _ => 37) []
      = .error ⟨.icode SF_ERR_MALFORMED_FILE, .SNDFILE_ERR⟩
    ∧ read_audio_file ⟨0, 2, 0, 44100, 1, []⟩ .RS_NONE 44100 true true true (fun _ => 37) []
      = .error ⟨.icode SF_ERR_MALFORMED_FILE, .SNDFILE_ERR⟩
    ∧ read_audio_file ⟨0, 2, 1, 0, 1, []⟩ .RS_NONE 44100 true true true (fun _ => 37) []
      = .error ⟨.icode SF_ERR_MALFORMED_FILE, .SNDFILE_ERR⟩
    ∧ read_audio_file ⟨0, 2, 1, 44100, 0, []⟩ .RS_NONE 44100 true true true (fun _ => 37) []
      = .error ⟨.icode SF_ERR_MALFORMED_FILE, .SNDFILE_ERR⟩
    ∧ raise_tag ⟨.icode SF_ERR_MALFORMED_FILE, .SNDFILE_ERR⟩ = .invalid_format :=
  ⟨(c6_open_validation ⟨5, 2, 1, 44100, 1, []⟩ .RS_NONE 44100 true true true (fun _ => 37) []).1
     (by decide),
   ((c6_open_validation ⟨0, 0, 1, 44100, 1, []⟩ .RS_NONE 44100 true true true (fun _ => 37) []).2
     rfl (Or.inl (by decide))).1,
   ((c6_open_validation ⟨0, 2, 0, 44100, 1, []⟩ .RS_NONE 44100 true true true (fun _ => 37) []).2
     rfl (Or.inr (Or.inl (by decide)))).1,
   ((c6_open_validation ⟨0, 2, 1, 0, 1, []⟩ .RS_NONE 44100 true true true (fun _ => 37) []).2
     rfl (Or.inr (Or.inr (Or.inl (by decide))))).1,
   ((c6_open_validation ⟨0, 2, 1, 44100, 0, []⟩ .RS_NONE 44100 true true true (fun _ => 37) []).2
     rfl (Or.inr (Or.inr (Or.inr (by decide))))).1,
   rfl⟩

/-- Claim C7: for every read call that passes metadata validation, the
strategy is picked by the single boolean condition of read_audio_file:
pass-through exactly when the quality preset is RS_NONE or the target rate
equals the native rate, the resampler otherwise, and read_audio_file
dispatches to the corresponding reader. -/
theorem c7_strategy_selection (sf : SndFile) (res_typ : resampling_t) (sample_rate : Int)
    (fix allocOk createOk : Bool) (init : Nat → Sample) (oracle : List SoxrResp)
    (hopen : sf.openErr = 0) (hfr : 0 < sf.frames) (hch : 0 < sf.channels)
    (hsr : 0 < sf.samplerate) (hfmt : 0 < sf.format) :
    (selectStrategy res_typ sample_rate sf.samplerate = .passThrough
      ↔ (res_typ = .RS_NONE ∨ sample_rate = sf.samplerate))
    ∧ (selectStrategy res_typ sample_rate sf.samplerate = .passThrough →
      read_audio_file sf res_typ sample_rate fix allocOk createOk init oracle
        = SndfileReader.process_whole sf.frames.toNat sf.channels.toNat sf.samplerate.toNat
            sf.format.toNat allocOk init sf.reads)
    ∧ (selectStrategy res_typ sample_rate sf.samplerate = .resampler →
      read_audio_file sf res_typ sample_rate fix allocOk createOk init oracle
        = SoXrReader.process_whole sf.frames.toNat sf.channels.toNat sf.samplerate.toNat
            sample_rate.toNat sf.format.toNat fix createOk init sf.reads oracle) := by
  have hv : ¬(sf.frames ≤ 0 ∨ sf.channels ≤ 0 ∨ sf.samplerate ≤ 0 ∨ sf.format ≤ 0) := by
    push_neg
    omega
  refine ⟨?_, ?_, ?_⟩
  · by_cases h1 : res_typ = resampling_t.RS_NONE
    · simp [selectStrategy, h1]
    · by_cases h2 : sample_rate = sf.samplerate
      · simp [selectStrategy, h1, h2]
      · simp [selectStrategy, h1, h2]
  · intro h
    rw [read_audio_file, if_neg (by simp [hopen]), if_neg hv, h]
  · intro h
    rw [read_audio_file, if_neg (by simp [hopen]), if_neg hv, h]

theorem c7_strategy_selection_witness :
    (selectStrategy .RS_NONE 44100 44100 = .passThrough
      ↔ (resampling_t.RS_NONE = .RS_NONE ∨ (44100 : Int) = 44100))
    ∧ read_audio_file ⟨0, 4, 1, 44100, 1, []⟩ .RS_SOXR_HQ 22050 true true true (fun _ => 37) []
      = SoXrReader.process_whole 4 1 44100 22050 1 true true (fun _ => 37) [] [] :=
  ⟨(c7_strategy_selection ⟨0, 4, 1, 44100, 1, []⟩ .RS_NONE 44100 true true true (fun _ => 37) []
      rfl (by decide) (by decide) (by decide) (by decide)).1,
   (c7_strategy_selection ⟨0, 4, 1, 44100, 1, []⟩ .RS_SOXR_HQ 22050 true true true (fun _ => 37) []
      rfl (by decide) (by decide) (by decide) (by decide)).2.2 rfl⟩

/-- Claim C8: AudioWriter::write writes metadata.frames frames (writef is
called with nframes) and succeeds exactly when the number of frames actually
written equals nframes; on a short write it returns a sndfile SourceError
whose code is the decoder last error when set, else the generic
SF_ERR_SYSTEM. -/
theorem c8_writer_short_write (nframes written lastErr : Int) :
    (AudioWriter.write nframes written lastErr = .ok () ↔ written = nframes)
    ∧ (written ≠ nframes →
      AudioWriter.write nframes written lastErr
        = .error ⟨.icode (if lastErr ≠ 0 then lastErr else SF_ERR_SYSTEM), .SNDFILE_ERR⟩) := by
  constructor
  · constructor
    · intro h
      by_contra hne
      simp [AudioWriter.write, if_pos hne] at h
    · intro h
      simp [AudioWriter.write, h]
  · intro hne
    simp [AudioWriter.write, if_pos hne]

theorem c8_writer_short_write_witness :
    (AudioWriter.write 3 3 0 = .ok () ↔ (3 : Int) = 3)
    ∧ AudioWriter.write 3 2 5 = .error ⟨.icode 5, .SNDFILE_ERR⟩ :=
  ⟨(c8_writer_short_write 3 3 0).1,
   by simpa using (c8_writer_short_write 3 2 5).2 (by decide)⟩

/-- Claim C9: under the hypothesis that every soxr_process call the loop
performs reports odone at most the output capacity frames - totalGenerated it
was given (mainOK), a loop started with totalGenerated ≤ frames never returns
the defensive post-process overflow InternalError: that branch is
unreachable. -/
theorem c9_overflow_branch_unreachable (frames channels tr tg : Nat) (buf : Buffer)
    (oracle : List SoxrResp) (reads : List ReadResult)
    (hinv : tg ≤ frames) (hok : mainOK frames tg oracle reads = true) :
    mainLoop frames channels oracle tr tg buf reads ≠ .error overflowErr :=
  mainLoop_ne_overflow reads frames channels oracle tr tg buf hinv hok

theorem c9_overflow_branch_unreachable_witness :
    (0 : Nat) ≤ 4
    ∧ mainOK 4 0 [.rok 1 2 [1, 2], .rok 0 0 []] [.chunk 1 [9]] = true
    ∧ mainLoop 4 1 [.rok 1 2 [1, 2], .rok 0 0 []] 0 0 ⟨(fun _ => 37), []⟩ [.chunk 1 [9]]
      ≠ .error overflowErr :=
  ⟨by omega, by decide,
   c9_overflow_branch_unreachable 4 1 0 0 ⟨(fun _ => 37), []⟩
     [.rok 1 2 [1, 2], .rok 0 0 []] [.chunk 1 [9]] (by omega) (by decide)⟩

/-- Claim C10: the quality-preset mapping get_recipe_type is total and never
fails: every resampling_t value other than RS_SOXR_LQ, RS_SOXR_MQ,
RS_SOXR_HQ and RS_SOXR_VHQ (including the quick preset RS_SOXR_QQ and all
unimplemented presets) maps to the very-high-quality recipe SOXR_VHQ. -/
theorem c10_recipe_default (t : resampling_t)
    (h1 : t ≠ .RS_SOXR_LQ) (h2 : t ≠ .RS_SOXR_MQ)
    (h3 : t ≠ .RS_SOXR_HQ) (h4 : t ≠ .RS_SOXR_VHQ) :
    get_recipe_type t = SOXR_VHQ := by
  cases t <;> simp_all [get_recipe_type]

theorem c10_recipe_default_witness :
    resampling_t.RS_SOXR_QQ ≠ .RS_SOXR_LQ ∧ get_recipe_type .RS_SOXR_QQ = SOXR_VHQ :=
  ⟨by decide,
   c10_recipe_default .RS_SOXR_QQ (by decide) (by decide) (by decide) (by decide)⟩

/-- Claim C3: padding correction at the end of a successful resampling read.
With accurate = ceil(totalRead * target_sr / input_sr) recomputed from the
frames actually read: when padding (fix) is enabled and totalGenerated <
accurate, every sample of the tail region from totalGenerated * channels up
to accurate * channels of the output is exactly zero and the returned
metadata is (frames = totalGenerated, padded_frames = accurate); when
padding is disabled, padded_frames = totalGenerated. -/
theorem c3_padding_correction (nominal channels input_sr target_sr format : Nat)
    (fix : Bool) (init : Nat → Sample) (reads : List ReadResult) (oracle : List SoxrResp)
    (tr tg : Nat)
    (hloop : loopOut (mainLoop (ceilDiv (nominal * target_sr) input_sr) channels oracle 0 0
        ⟨init, []⟩ reads) = some (tr, tg)) :
    (fix = true → tg < ceilDiv (tr * target_sr) input_sr →
      (∀ i, tg * channels ≤ i → i < ceilDiv (tr * target_sr) input_sr * channels →
        sampleAt (SoXrReader.process_whole nominal channels input_sr target_sr format fix true
          init reads oracle) i = some 0)
      ∧ resultMD (SoXrReader.process_whole nominal channels input_sr target_sr format fix true
          init reads oracle)
        = some ⟨tg, channels, target_sr, ceilDiv (tr * target_sr) input_sr, format⟩)
    ∧ (fix = false →
      resultMD (SoXrReader.process_whole nominal channels input_sr target_sr format fix true
          init reads oracle) = some ⟨tg, channels, target_sr, tg, format⟩) := by
  cases hm : mainLoop (ceilDiv (nominal * target_sr) input_sr) channels oracle 0 0
      ⟨init, []⟩ reads with
  | error e =>
    rw [hm] at hloop
    simp [loopOut] at hloop
  | ok res =>
    obtain ⟨tr0, tg0, b⟩ := res
    rw [hm] at hloop
    simp only [loopOut, Option.some.injEq, Prod.mk.injEq] at hloop
    obtain ⟨htr, htg⟩ := hloop
    subst htr
    subst htg
    constructor
    · intro hfix hlt
      subst hfix
      have hrun : SoXrReader.process_whole nominal channels input_sr target_sr format true true
          init reads oracle
          = .ok (b.writeN (tg0 * channels)
              ((ceilDiv (tr0 * target_sr) input_sr - tg0) * channels)
              (List.replicate ((ceilDiv (tr0 * target_sr) input_sr - tg0) * channels) 0),
            ⟨tg0, channels, target_sr, ceilDiv (tr0 * target_sr) input_sr, format⟩) := by
        simp only [SoXrReader.process_whole, hm]
        simp [hlt, Nat.sub_pos_of_lt hlt]
      have harith : tg0 * channels + (ceilDiv (tr0 * target_sr) input_sr - tg0) * channels
          = ceilDiv (tr0 * target_sr) input_sr * channels := by
        rw [← Nat.add_mul, Nat.add_sub_cancel' hlt.le]
      refine ⟨?_, ?_⟩
      · intro i hi1 hi2
        rw [hrun]
        simp only [sampleAt, Buffer.writeN, Option.some.injEq]
        rw [List.take_of_length_le (by simp)]
        exact overwrite_replicate _ _ _ _ hi1 (by omega)
      · rw [hrun]
        rfl
    · intro hfix
      subst hfix
      have hrun2 : SoXrReader.process_whole nominal channels input_sr target_sr format false true
          init reads oracle = .ok (b, ⟨tg0, channels, target_sr, tg0, format⟩) := by
        simp only [SoXrReader.process_whole, hm]
        simp
      rw [hrun2]
      rfl

theorem c3_padding_correction_witness :
    loopOut (mainLoop (ceilDiv (4 * 1) 1) 1 [.rok 2 1 [7], .rok 0 0 []] 0 0
        ⟨(fun _ => 37), []⟩ [.chunk 2 [8, 9]]) = some (2, 1)
    ∧ sampleAt (SoXrReader.process_whole 4 1 1 1 7 true true (fun _ => 37)
        [.chunk 2 [8, 9]] [.rok 2 1 [7], .rok 0 0 []]) 1 = some 0
    ∧ resultMD (SoXrReader.process_whole 4 1 1 1 7 true true (fun _ => 37)
        [.chunk 2 [8, 9]] [.rok 2 1 [7], .rok 0 0 []]) = some ⟨1, 1, 1, 2, 7⟩ := by
  have h := c3_padding_correction 4 1 1 1 7 true (fun _ => 37)
    [.chunk 2 [8, 9]] [.rok 2 1 [7], .rok 0 0 []] 2 1 rfl
  exact ⟨rfl, (h.1 rfl (by decide)).1 1 (by decide) (by decide), (h.1 rfl (by decide)).2⟩

/-- Claim C4: refuted as stated (corrected). A successful resampling read in
which the resampler generates more frames than the recomputed accurate count
ceil(totalRead * target / native) returns metadata with
frames > padded_frames: with nominal frames 10, mono, native rate 1, target
rate 2 and padding enabled, a decoder delivering one frame and a resampler
producing 5 frames from it (within its capacity bound of 20) yields
frames = 5 and padded_frames = 2, violating frames ≤ padded_frames. -/
theorem c4_metadata_invariant_cex :
    resultMD (read_audio_file ⟨0, 10, 1, 1, 7, [.chunk 1 [5]]⟩ .RS_SOXR_HQ 2 true true true
        (fun _ => 37) [.rok 1 5 [1, 2, 3, 4, 5], .rok 0 0 []])
      = some ⟨5, 1, 2, 2, 7⟩
    ∧ ¬((5 : Nat) ≤ 2) :=
  ⟨rfl, by omega⟩

/-- Claim C4 (amended): every AudioMetadata returned by a successful
read_audio_file call satisfies 0 < channels unconditionally; it satisfies
0 < sample_rate provided the requested target rate is positive whenever the
resampling path is taken (hsr); and it satisfies frames ≤ padded_frames
provided the resampling loop never generates more than the recomputed
accurate frame count ceil(totalRead * target / native) (hres). The
counterexample shows frames ≤ padded_frames fails without hres. -/
theorem c4_metadata_invariant (sf : SndFile) (res_typ : resampling_t) (sample_rate : Int)
    (fix allocOk createOk : Bool) (init : Nat → Sample) (oracle : List SoxrResp)
    (md : AudioMetadata)
    (hmd : resultMD (read_audio_file sf res_typ sample_rate fix allocOk createOk init oracle)
      = some md)
    (hsr : res_typ ≠ .RS_NONE → sample_rate ≠ sf.samplerate → 0 < sample_rate)
    (hres : ∀ tr tg, loopOut (mainLoop (ceilDiv (sf.frames.toNat * sample_rate.toNat)
        sf.samplerate.toNat) sf.channels.toNat oracle 0 0 ⟨init, []⟩ sf.reads)
        = some (tr, tg) →
      tg ≤ ceilDiv (tr * sample_rate.toNat) sf.samplerate.toNat) :
    0 < md.channels ∧ 0 < md.sample_rate ∧ md.frames ≤ md.padded_frames := by
  rw [read_audio_file] at hmd
  by_cases hopen : sf.openErr ≠ 0
  · rw [if_pos hopen] at hmd
    simp [resultMD] at hmd
  · rw [if_neg hopen] at hmd
    by_cases hbad : sf.frames ≤ 0 ∨ sf.channels ≤ 0 ∨ sf.samplerate ≤ 0 ∨ sf.format ≤ 0
    · rw [if_pos hbad] at hmd
      simp [resultMD] at hmd
    · rw [if_neg hbad] at hmd
      push_neg at hbad
      obtain ⟨hfr, hch, hsrate, hfmt⟩ := hbad
      by_cases hcond : res_typ ≠ resampling_t.RS_NONE ∧ sample_rate ≠ sf.samplerate
      · have hstrat : selectStrategy res_typ sample_rate sf.samplerate = .resampler := by
          rw [selectStrategy, if_pos hcond]
        rw [hstrat] at hmd
        have hsr2 : 0 < sample_rate := hsr hcond.1 hcond.2
        simp only [SoXrReader.process_whole] at hmd
        by_cases hco : createOk = false
        · rw [if_pos hco] at hmd
          simp [resultMD] at hmd
        · rw [if_neg hco] at hmd
          cases hm : mainLoop (ceilDiv (sf.frames.toNat * sample_rate.toNat)
              sf.samplerate.toNat) sf.channels.toNat oracle 0 0 ⟨init, []⟩ sf.reads with
          | error e =>
            rw [hm] at hmd
            simp [resultMD] at hmd
          | ok res =>
            obtain ⟨tr0, tg0, b⟩ := res
            rw [hm] at hmd
            simp only [resultMD, Option.some.injEq] at hmd
            subst hmd
            have hacc : tg0 ≤ ceilDiv (tr0 * sample_rate.toNat) sf.samplerate.toNat :=
              hres tr0 tg0 (by rw [hm]; rfl)
            refine ⟨by simp; omega, by simp; omega, ?_⟩
            cases fix with
            | false => simp
            | true => simpa using hacc
      · have hstrat : selectStrategy res_typ sample_rate sf.samplerate = .passThrough := by
          rw [selectStrategy, if_neg hcond]
        rw [hstrat] at hmd
        simp only [SndfileReader.process_whole] at hmd
        by_cases hao : allocOk = false
        · rw [if_pos hao] at hmd
          simp [resultMD] at hmd
        · rw [if_neg hao] at hmd
          cases hp : ptLoop sf.channels.toNat 0 ⟨init, []⟩ sf.reads with
          | error e =>
            rw [hp] at hmd
            simp [resultMD] at hmd
          | ok res =>
            obtain ⟨tr0, b⟩ := res
            rw [hp] at hmd
            simp only [resultMD, Option.some.injEq] at hmd
            subst hmd
            exact ⟨by simp; omega, by simp; omega, le_refl _⟩

theorem c4_metadata_invariant_witness :
    resultMD (read_audio_file ⟨0, 4, 1, 1, 7, [.chunk 2 [8, 9]]⟩ .RS_NONE 1 true true true
        (fun _ => 37) []) = some ⟨2, 1, 1, 2, 7⟩
    ∧ 0 < (1 : Nat) ∧ 0 < (1 : Nat) ∧ (2 : Nat) ≤ 2 := by
  refine ⟨rfl, ?_⟩
  exact c4_metadata_invariant ⟨0, 4, 1, 1, 7, [.chunk 2 [8, 9]]⟩ .RS_NONE 1 true true true
    (fun _ => 37) [] ⟨2, 1, 1, 2, 7⟩ rfl (fun h _ => absurd rfl h)
    (fun tr tg h => by
      have h2 : (some ((2 : Nat), (0 : Nat)) : Option (Nat × Nat)) = some (tr, tg) := h
      simp only [Option.some.injEq, Prod.mk.injEq] at h2
      obtain ⟨h3, h4⟩ := h2
      subst h4
      exact Nat.zero_le _)

/-- Claim C5: refuted as stated (corrected). The pass-through reader returns
frames = total frames actually read, not the nominal native frame count: a
file whose nominal frames() is 2 but whose decoder delivers a single 1-frame
chunk before end of stream yields metadata frames = 1, not 2. -/
theorem c5_passthrough_cex :
    resultMD (read_audio_file ⟨0, 2, 1, 44100, 1, [.chunk 1 [5]]⟩ .RS_NONE 44100 true true true
        (fun _ => 37) []) = some ⟨1, 1, 44100, 1, 1⟩
    ∧ (1 : Nat) ≠ 2 :=
  ⟨rfl, by omega⟩

/-- Claim C5 (amended): with resampling disabled or target rate equal to the
native rate, read_audio_file runs the pass-through reader, whose result does
not depend on the resampler oracle (no resampling engine invoked, no
padding), and any returned metadata has frames equal to the total number of
frames actually delivered by the decoder (ptTotal) — equal to the nominal
native frame count exactly when the decoder delivers its nominal count — and
padded_frames = frames. -/
theorem c5_passthrough_exact (sf : SndFile) (res_typ : resampling_t) (sample_rate : Int)
    (fix allocOk createOk : Bool) (init : Nat → Sample) (oracle : List SoxrResp)
    (hopen : sf.openErr = 0) (hfr : 0 < sf.frames) (hch : 0 < sf.channels)
    (hsrate : 0 < sf.samplerate) (hfmt : 0 < sf.format)
    (hsel : res_typ = .RS_NONE ∨ sample_rate = sf.samplerate) :
    read_audio_file sf res_typ sample_rate fix allocOk createOk init oracle
      = SndfileReader.process_whole sf.frames.toNat sf.channels.toNat sf.samplerate.toNat
          sf.format.toNat allocOk init sf.reads
    ∧ (∀ md, resultMD (read_audio_file sf res_typ sample_rate fix allocOk createOk init oracle)
        = some md → md.frames = ptTotal sf.reads ∧ md.padded_frames = md.frames) := by
  have hcond : ¬(res_typ ≠ resampling_t.RS_NONE ∧ sample_rate ≠ sf.samplerate) := by
    rcases hsel with h | h
    · simp [h]
    · simp [h]
  have hstrat : selectStrategy res_typ sample_rate sf.samplerate = .passThrough := by
    rw [selectStrategy, if_neg hcond]
  have heq : read_audio_file sf res_typ sample_rate fix allocOk createOk init oracle
      = SndfileReader.process_whole sf.frames.toNat sf.channels.toNat sf.samplerate.toNat
          sf.format.toNat allocOk init sf.reads := by
    rw [read_audio_file, if_neg (by simp [hopen]), if_neg (by push_neg; omega), hstrat]
  refine ⟨heq, ?_⟩
  intro md hmd
  rw [heq] at hmd
  simp only [SndfileReader.process_whole] at hmd
  by_cases hao : allocOk = false
  · rw [if_pos hao] at hmd
    simp [resultMD] at hmd
  · rw [if_neg hao] at hmd
    cases hp : ptLoop sf.channels.toNat 0 ⟨init, []⟩ sf.reads with
    | error e =>
      rw [hp] at hmd
      simp [resultMD] at hmd
    | ok res =>
      obtain ⟨tr0, b⟩ := res
      rw [hp] at hmd
      simp only [resultMD, Option.some.injEq] at hmd
      have ht := ptLoop_total sf.reads sf.channels.toNat 0 ⟨init, []⟩ tr0 (by rw [hp]; rfl)
      subst hmd
      exact ⟨by simpa using ht, rfl⟩

theorem c5_passthrough_exact_witness :
    read_audio_file ⟨0, 2, 1, 44100, 1, [.chunk 1 [5]]⟩ .RS_NONE 44100 true true true
        (fun _ => 37) [.rok 9 9 []]
      = SndfileReader.process_whole 2 1 44100 1 true (fun _ => 37) [.chunk 1 [5]]
    ∧ (1 : Nat) = ptTotal [.chunk 1 [5]] ∧ (1 : Nat) = 1 := by
  have h := c5_passthrough_exact ⟨0, 2, 1, 44100, 1, [.chunk 1 [5]]⟩ .RS_NONE 44100 true true
    true (fun _ => 37) [.rok 9 9 []] rfl (by decide) (by decide) (by decide) (by decide)
    (Or.inl rfl)
  exact ⟨h.1, (h.2 ⟨1, 1, 44100, 1, 1⟩ rfl).1, (h.2 ⟨1, 1, 44100, 1, 1⟩ rfl).2⟩

end SoundML
